import Mathlib

/-!
# Verification of the health-tracker persistence core

A shallow embedding, in Lean 4, of the persistence / daily-rollover core of
the client-side health-tracker app (`src/workouts/workouts-scripts.js`):

* the browser `localStorage` store, modelled as an association list of
  string keys to string values in insertion order (JS object / storage
  iteration order);
* the import/export serializer (`exportData`, `importData`), including the
  pre-import backup and the clear-and-restore rollback path;
* the quota cleanup policy (`storageManager.cleanupOldData`) on a
  date-keyed history object;
* the `WorkoutTracker` state machine (`toggleWorkout`,
  `resetWorkoutTabs`, `resetDailyWorkouts`, `checkAndResetDailyWorkouts`,
  `saveWorkoutHistory`) and the workout-tab display ordering of
  `renderWorkoutTabs`.

Dates, timestamps and the current time are passed as explicit string
parameters (`today`, `now`); write failures of the underlying storage
(quota) are modelled by an explicit failure oracle.
-/

namespace Tracker2

/-! ## The key-value store (browser localStorage)

`localStorage` holds string keys mapped to string values; keys are unique
and iteration (`localStorage.key(i)`, `Object.keys`) follows insertion
order.  We model it as an association list whose well-formedness
(uniqueness of keys) is the `Nodup` hypothesis carried by theorems that
need it. -/

/-- The storage: an association list of key/value pairs in insertion order. -/
abbrev Store : Type := List (String × String)

/-- `localStorage.getItem(k)`: the value of the first binding of `k`
(`none` plays the role of JS `null`). -/
def Store.get : Store → String → Option String
  | [], _ => none
  | p :: rest, k => if p.1 == k then some p.2 else Store.get rest k

/-- `localStorage.setItem(k, v)`: replace the binding of `k` in place if
present, otherwise append it (JS insertion order). -/
def Store.set : Store → String → String → Store
  | [], k, v => [(k, v)]
  | (k', v') :: rest, k, v =>
    if k' = k then (k, v) :: rest else (k', v') :: Store.set rest k v

/-- The keys of the store, in iteration order. -/
def Store.keys (st : Store) : List String :=
  st.map (·.1)

/-- JS truthiness of a `localStorage.getItem` result: `null` and the empty
string are falsy, every other string is truthy. -/
def jsTruthy : Option String → Bool
  | none => false
  | some s => !(s == "")

/-! ## Import / export documents

The parsed JSON import document, restricted to the shape the importer
reads.  A `none` section models an absent (or JS-falsy) key; leaf fields
are raw stored strings, with JS truthiness (`jsTruthy`) deciding whether
the importer writes them.  The export document has the same per-tracker
shape with the raw stored strings copied verbatim. -/

/-- A water/protein section `{ goal, intake, history }` of raw stored strings. -/
structure TrackerSection where
  goal : Option String
  intake : Option String
  history : Option String
deriving DecidableEq, Repr

/-- The workout section `{ state, count, history }`. -/
structure WorkoutSection where
  state : Option String
  count : Option String
  history : Option String
deriving DecidableEq, Repr

/-- The habits section `{ data }`. -/
structure HabitsSection where
  data : Option String
deriving DecidableEq, Repr

/-- The settings section `{ theme, reminder }`. -/
structure SettingsSection where
  theme : Option String
  reminder : Option String
deriving DecidableEq, Repr

/-- A parsed import document; `none` sections model absent keys. -/
structure ImportDoc where
  version : Option String
  water : Option TrackerSection
  protein : Option TrackerSection
  workout : Option WorkoutSection
  habits : Option HabitsSection
  settings : Option SettingsSection
deriving DecidableEq, Repr

/-- The assembled export document
`{version, exportDate, water, protein, workout, habits, settings}`. -/
structure ExportDoc where
  version : String
  exportDate : String
  water : TrackerSection
  protein : TrackerSection
  workout : WorkoutSection
  habits : HabitsSection
  settings : SettingsSection
deriving DecidableEq, Repr

/-! ## exportData -/

/-- `exportData`: read every known storage key, assemble the versioned
document, and fail (toast `'No tracking data found to export.'`) when
`!water.goal && !protein.goal && !habits.data`.  `now` is
`new Date().toISOString()`. -/
def exportData (st : Store) (now : String) : Except Unit ExportDoc :=
  let d : ExportDoc :=
    { version := "2.0"
      exportDate := now
      water := ⟨st.get "goal_water", st.get "intake_water", st.get "history_water"⟩
      protein := ⟨st.get "goal_protein", st.get "intake_protein", st.get "history_protein"⟩
      workout := ⟨st.get "workout_state", st.get "workout_count", st.get "workout_history"⟩
      habits := ⟨st.get "habits_data"⟩
      settings := ⟨st.get "app_theme", st.get "global_reminder"⟩ }
  if !jsTruthy d.water.goal && !jsTruthy d.protein.goal && !jsTruthy d.habits.data then
    .error ()
  else
    .ok d

/-- Whether `exportData` fails with the no-data error. -/
def exportFails (st : Store) (now : String) : Bool :=
  match exportData st now with
  | .error _ => true
  | .ok _ => false

/-- The spec's words for the no-data condition (for comparison with the
code's actual guard): "no tracker has ever produced goal/intake/habit
data", i.e. no water or protein goal, no water or protein intake, and no
habits data. -/
def specNoTrackerData (st : Store) : Bool :=
  !jsTruthy (st.get "goal_water") && !jsTruthy (st.get "intake_water") &&
  !jsTruthy (st.get "goal_protein") && !jsTruthy (st.get "intake_protein") &&
  !jsTruthy (st.get "habits_data")

/-! ## importData -/

/-- The typed import failures surfaced by `importData`'s `catch`. -/
inductive ImportError
  /-- `'Import file is empty or corrupt.'` (falsy parsed document). -/
  | malformed
  /-- `'Import file is missing required sections: …'`. -/
  | missingSection (sections : List String)
  /-- `'Import file is too large for browser storage. …'`. -/
  | tooLarge
  /-- `'Error saving imported data. Your previous data has been restored.'` -/
  | writeFailed
deriving DecidableEq, Repr

/-- Presence (JS truthiness) of a required section of the document. -/
def sectionPresent (d : ImportDoc) (s : String) : Bool :=
  if s = "water" then d.water.isSome
  else if s = "protein" then d.protein.isSome
  else false

/-- The writes `importData` issues for one water/protein section:
`goal_<name>`, `intake_<name>`, `history_<name>`, each guarded by JS
truthiness of the corresponding field. -/
def trackerWrites (name : String) (s : TrackerSection) : List (String × String) :=
  (if jsTruthy s.goal then [("goal_" ++ name, s.goal.getD "")] else []) ++
  (if jsTruthy s.intake then [("intake_" ++ name, s.intake.getD "")] else []) ++
  (if jsTruthy s.history then [("history_" ++ name, s.history.getD "")] else [])

/-- The writes for the workout section (`if (importedData.workout)` guard,
then one guarded write per field). -/
def workoutWrites : Option WorkoutSection → List (String × String)
  | none => []
  | some w =>
    (if jsTruthy w.state then [("workout_state", w.state.getD "")] else []) ++
    (if jsTruthy w.count then [("workout_count", w.count.getD "")] else []) ++
    (if jsTruthy w.history then [("workout_history", w.history.getD "")] else [])

/-- The writes for habits (`importedData.habits && importedData.habits.data`). -/
def habitsWrites : Option HabitsSection → List (String × String)
  | none => []
  | some h => if jsTruthy h.data then [("habits_data", h.data.getD "")] else []

/-- The writes for settings (`theme` then `reminder`, each guarded). -/
def settingsWrites : Option SettingsSection → List (String × String)
  | none => []
  | some s =>
    (if jsTruthy s.theme then [("app_theme", s.theme.getD "")] else []) ++
    (if jsTruthy s.reminder then [("global_reminder", s.reminder.getD "")] else [])

/-- All writes issued during `importData`'s apply phase, in program order:
water, protein, workout, habits, settings. -/
def importWrites (d : ImportDoc) : List (String × String) :=
  (d.water.elim [] (trackerWrites "water")) ++
  (d.protein.elim [] (trackerWrites "protein")) ++
  workoutWrites d.workout ++ habitsWrites d.habits ++ settingsWrites d.settings

/-- Issue the writes left to right with plain `localStorage.setItem`; the
oracle `fails k v` says whether a given write throws (quota exceeded).
`none` signals that some write threw mid-sequence. -/
def applyWrites (st : Store) (ws : List (String × String))
    (fails : String → String → Bool) : Option Store :=
  match ws with
  | [] => some st
  | (k, v) :: rest =>
    if fails k v then none else applyWrites (st.set k v) rest fails

/-- `localStorage.clear()` followed by `Object.keys(backup).forEach(key =>
localStorage.setItem(key, backup[key]))`: restore writes are issued into
the emptied store in the backup's iteration order. -/
def restoreBackup (backup : Store) : Store :=
  backup.foldl (fun s kv => s.set kv.1 kv.2) []

/-- `importData` (the `reader.onload` handler, after file-level checks):
validate the parsed document, and on user confirmation snapshot the whole
store as a backup, apply the writes, and on any write failure clear the
store and restore the backup before surfacing the error.  Returns the
resulting store and either an `ImportError` or a flag telling whether
the import ran (`false` = user declined the confirm dialog).  `docSize` is
`JSON.stringify(importedData).length`; `fails` is the write-failure
oracle. -/
def importData (st : Store) (doc : Option ImportDoc) (docSize : Nat)
    (confirmed : Bool) (fails : String → String → Bool) :
    Store × Except ImportError Bool :=
  match doc with
  | none => (st, .error .malformed)
  | some d =>
    let missing := ["water", "protein"].filter (fun s => !sectionPresent d s)
    if missing ≠ [] then
      (st, .error (.missingSection missing))
    else if docSize > 4718592 then
      (st, .error .tooLarge)
    else if !confirmed then
      (st, .ok false)
    else
      let backup := st
      match applyWrites st (importWrites d) fails with
      | some st' => (st', .ok true)
      | none => (restoreBackup backup, .error .writeFailed)

/-! ## Cleanup policy (storageManager.cleanupOldData)

The per-history-object body of `cleanupOldData` for a standard date-keyed
history (the non-`habits_data` branch): sort the object's keys, and if
more than 90 remain, delete the oldest until 90 remain; report whether
pruning occurred.  A JS object is an association list of unique keys in
insertion order; `delete` removes a key leaving the others' order
untouched; `Object.keys(...).sort()` is a lexicographic string sort. -/

/-- The per-object standard-history branch of `cleanupOldData`: the pruned
object and the object's contribution to the `cleanedUp` flag. -/
def cleanupHistoryObject {α : Type} (h : List (String × α)) :
    List (String × α) × Bool :=
  let dates := List.insertionSort (· ≤ ·) (h.map (·.1))
  if dates.length > 90 then
    let datesToRemove := dates.take (dates.length - 90)
    (h.filter (fun kv => !datesToRemove.contains kv.1), true)
  else
    (h, false)

/-- A zero-padded two-digit rendering of small numbers. -/
def pad2 (n : Nat) : String :=
  if n < 10 then "0" ++ toString n else toString n

/-- 120 well-formed `YYYY-MM-DD` keys (the first ten days of each month of
2024), in chronological — and lexicographic — order. -/
def dates120 : List String :=
  (List.range 120).map
    (fun i => "2024-" ++ pad2 (i / 10 + 1) ++ "-" ++ pad2 (i % 10 + 1))

/-! ## The WorkoutTracker state machine

In-memory state: `workoutState` (an object mapping type name to
`{completed, order}`), `workoutCounts` (type name to click count),
`workoutHistory` (date string to an array of entries), plus the stored
last-reset marker `localStorage.getItem('lastResetDate_workout')`.  JS
objects are association lists of unique keys in insertion order; mutating
an existing key's value keeps its position, assigning a fresh key appends
it. -/

/-- One value of `workoutState`: `{ completed, order }`. -/
structure WState where
  completed : Bool
  order : Nat
deriving DecidableEq, Repr

/-- One entry of a `workoutHistory` day bucket:
`{ type, count, timestamp }`. -/
structure HEntry where
  type : String
  count : Nat
  timestamp : String
deriving DecidableEq, Repr

/-- Look up a key in a JS-object association list. -/
def lookupA {α : Type} : List (String × α) → String → Option α
  | [], _ => none
  | p :: rest, k => if p.1 == k then some p.2 else lookupA rest k

/-- Replace the value at key `k` (if present) by `f` of it, in place;
absent keys leave the object unchanged. -/
def modifyA {α : Type} : List (String × α) → String → (α → α) → List (String × α)
  | [], _, _ => []
  | p :: rest, k, f => (if p.1 == k then (p.1, f p.2) else p) :: modifyA rest k f

/-- JS assignment `obj[k] = v`: overwrite in place when present, append
when absent. -/
def setA {α : Type} (l : List (String × α)) (k : String) (v : α) :
    List (String × α) :=
  if l.any (fun p => p.1 == k) then modifyA l k (fun _ => v) else l ++ [(k, v)]

/-- The canonical workout type list of the `WorkoutTracker` constructor. -/
def workoutTypes : List String :=
  ["Chest", "Back", "Shoulders", "Biceps", "Triceps", "Abs", "Legs"]

/-- The in-memory `WorkoutTracker` state plus the stored
`lastResetDate_workout` marker (`none` = key absent). -/
structure WTracker where
  workoutState : List (String × WState)
  workoutCounts : List (String × Nat)
  workoutHistory : List (String × List HEntry)
  lastReset : Option String
deriving DecidableEq, Repr

/-- The event a `toggleWorkout` call signals to the UI. -/
inductive WEvent
  /-- `'All workouts completed! Tabs have been reset.'` -/
  | allComplete
  /-- `'<type> workout marked as complete!'` -/
  | toggled
deriving DecidableEq, Repr

/-- `saveWorkoutHistory(type)`: create today's bucket when absent (JS
falsy check — an existing array, even empty, is truthy) and push
`{type, count: workoutCounts[type], timestamp: now}`. -/
def saveWorkoutHistory (t : WTracker) (type today now : String) : WTracker :=
  let h1 :=
    if (lookupA t.workoutHistory today).isNone then
      t.workoutHistory ++ [(today, [])]
    else
      t.workoutHistory
  let entry : HEntry := ⟨type, (lookupA t.workoutCounts type).getD 0, now⟩
  { t with workoutHistory := modifyA h1 today (fun es => es ++ [entry]) }

/-- The per-type body of `resetWorkoutTabs`'s state loop:
`completed = false; order = workoutTypes.indexOf(type)`. -/
def resetStateFn (ty : String) : WState → WState :=
  fun _ => ⟨false, workoutTypes.indexOf ty⟩

/-- `resetWorkoutTabs()`: for each canonical type set
`completed := false` and `order := workoutTypes.indexOf(type)`, and set
each count to `0` (plain assignment, so a fresh count key would be
created); history and the reset marker are untouched. -/
def resetWorkoutTabs (t : WTracker) : WTracker :=
  let st := workoutTypes.foldl
    (fun acc ty => modifyA acc ty (resetStateFn ty)) t.workoutState
  let cs := workoutTypes.foldl (fun acc ty => setA acc ty 0) t.workoutCounts
  { t with workoutState := st, workoutCounts := cs }

/-- `toggleWorkout(type)`: bump the click count, set `completed := true`,
record the history entry; then if every `workoutState` value is completed,
reset the tabs (history kept) and signal the all-complete event, else
signal an ordinary toggle. -/
def toggleWorkout (t : WTracker) (type today now : String) : WTracker × WEvent :=
  let t1 := { t with workoutCounts := modifyA t.workoutCounts type (· + 1) }
  let t2 := { t1 with
    workoutState := modifyA t1.workoutState type (fun s => { s with completed := true }) }
  let t3 := saveWorkoutHistory t2 type today now
  if t3.workoutState.all (fun p => p.2.completed) then
    (resetWorkoutTabs t3, .allComplete)
  else
    (t3, .toggled)

/-- `resetDailyWorkouts()`: reset the tabs and delete today's history
bucket when present. -/
def resetDailyWorkouts (t : WTracker) (today : String) : WTracker :=
  let t1 := resetWorkoutTabs t
  if (lookupA t1.workoutHistory today).isSome then
    { t1 with workoutHistory := t1.workoutHistory.filter (fun p => !(p.1 == today)) }
  else
    t1

/-- `checkAndResetDailyWorkouts()`: when the stored marker differs from
today, run the daily reset and write today into the marker; the returned
flag tells whether the reset branch ran. -/
def checkAndResetDailyWorkouts (t : WTracker) (today : String) : WTracker × Bool :=
  if t.lastReset ≠ some today then
    ({ resetDailyWorkouts t today with lastReset := some today }, true)
  else
    (t, false)

/-! ## Workout tab display ordering (renderWorkoutTabs)

`Object.entries(workoutState).sort(cmp)` with
`cmp(a, b) = a.completed !== b.completed ? (a.completed ? 1 : -1) : a.order - b.order`.
JS `Array.prototype.sort` is a stable sort consistent with the comparator,
which we model as a stable insertion sort with `a ≼ b ↔ cmp(a, b) ≤ 0`. -/

/-- `cmp(a, b) ≤ 0` for the `renderWorkoutTabs` comparator. -/
def tabLe (a b : String × WState) : Bool :=
  if a.2.completed != b.2.completed then !a.2.completed
  else a.2.order ≤ b.2.order

/-- The relation form of `tabLe` used by the sort. -/
def tabRel (a b : String × WState) : Prop :=
  tabLe a b = true

instance : DecidableRel tabRel := fun a b => Bool.decEq (tabLe a b) true

instance : IsTotal (String × WState) tabRel := by
  constructor
  intro a b
  unfold tabRel tabLe
  rcases ha : a.2.completed <;> rcases hb : b.2.completed <;> simp [ha, hb] <;> omega

instance : IsTrans (String × WState) tabRel := by
  constructor
  intro a b c
  unfold tabRel tabLe
  rcases ha : a.2.completed <;> rcases hb : b.2.completed <;>
    rcases hc : c.2.completed <;> simp [ha, hb, hc] <;> omega

/-- The sorted entry list of `renderWorkoutTabs` (completed last, then by
`order`). -/
def sortedWorkouts (state : List (String × WState)) : List (String × WState) :=
  List.insertionSort tabRel state

/-- One rendered workout tab: type name, completed flag, and the count
badge (shown only when the count exceeds 1). -/
structure WTab where
  type : String
  completed : Bool
  badge : Option Nat
deriving DecidableEq, Repr

/-- The tabs `renderWorkoutTabs` creates, in display order; the count only
feeds the badge, never the order. -/
def renderWorkoutTabs (state : List (String × WState))
    (counts : List (String × Nat)) : List WTab :=
  (sortedWorkouts state).map (fun p =>
    let c := (lookupA counts p.1).getD 0
    ⟨p.1, p.2.completed, if c > 1 then some c else none⟩)

/-! ## Lemmas about the store -/

/-- Setting an absent key appends it. -/
theorem Store.set_of_not_mem (st : Store) (k v : String)
    (h : k ∉ st.map (·.1)) : st.set k v = st ++ [(k, v)] := by
  induction st with
  | nil => rfl
  | cons p rest ih =>
    simp only [List.map_cons, List.mem_cons] at h
    push_neg at h
    simp [Store.set, Ne.symm h.1, ih h.2]

/-- Replaying a store with unique keys, left to right, into a store its
keys avoid, appends it verbatim. -/
theorem Store.foldl_set_eq_append (l : Store) : ∀ acc : Store,
    (l.map (·.1)).Nodup → (∀ x ∈ l, x.1 ∉ acc.map (·.1)) →
    l.foldl (fun s kv => s.set kv.1 kv.2) acc = acc ++ l := by
  induction l with
  | nil => intro acc _ _; simp
  | cons p rest ih =>
    intro acc hnd hd
    simp only [List.foldl_cons]
    rw [Store.set_of_not_mem acc p.1 p.2 (hd p (by simp))]
    rw [ih (acc ++ [p]) (by simpa using hnd.of_cons) ?_]
    · simp
    · intro x hx
      simp only [List.map_append, List.mem_append, List.map_cons, List.map_nil,
        List.mem_singleton, not_or]
      refine ⟨hd x (List.mem_cons_of_mem _ hx), ?_⟩
      have hp1 : p.1 ∉ rest.map (·.1) := by
        simpa using (List.nodup_cons.mp hnd).1
      intro hcontra
      exact hp1 (by simpa [← hcontra] using List.mem_map_of_mem (·.1) hx)

/-- Clearing the store and writing the backup back in iteration order
restores the backup verbatim (keys are unique in `localStorage`). -/
theorem restoreBackup_eq (st : Store) (h : (st.map (·.1)).Nodup) :
    restoreBackup st = st := by
  unfold restoreBackup
  rw [Store.foldl_set_eq_append st [] h (by simp)]
  simp

/-! ## C1: import is all-or-nothing -/

/-- C1: if any individual write issued during `importData`'s apply phase
fails, the store is cleared and the pre-import backup is written back
before the error is surfaced, so the resulting store equals the store as
it was immediately before the import began. -/
theorem import_write_failure_rolls_back (st : Store) (doc : Option ImportDoc)
    (docSize : Nat) (confirmed : Bool) (fails : String → String → Bool)
    (hnd : (st.map (·.1)).Nodup)
    (hfail : (importData st doc docSize confirmed fails).2 = .error .writeFailed) :
    (importData st doc docSize confirmed fails).1 = st := by
  cases doc with
  | none => simp [importData] at hfail
  | some d =>
    simp only [importData] at hfail ⊢
    split_ifs at hfail ⊢ with h1 h2 h3
    · simp at hfail
    · simp at hfail
    · cases happ : applyWrites st (importWrites d) fails with
      | some st' =>
        rw [happ] at hfail
        simp at hfail
      | none =>
        simpa using restoreBackup_eq st hnd

/-- Witness for C1: a concrete one-key store, an import document whose
first write (`goal_water`) fails, leaving the store exactly as it was. -/
theorem import_write_failure_rolls_back_witness :
    (([("a", "1")] : Store).map (·.1)).Nodup ∧
      (importData [("a", "1")]
        (some ⟨none, some ⟨some "2", none, none⟩, some ⟨none, none, none⟩,
          none, none, none⟩) 9 true (fun k _ => k == "goal_water")).2 =
        .error .writeFailed ∧
      (importData [("a", "1")]
        (some ⟨none, some ⟨some "2", none, none⟩, some ⟨none, none, none⟩,
          none, none, none⟩) 9 true (fun k _ => k == "goal_water")).1 =
        [("a", "1")] :=
  ⟨by decide, by rfl,
    import_write_failure_rolls_back _ _ _ _ _ (by decide) (by rfl)⟩

/-! ## C2: missing `protein` section rejects the import untouched -/

/-- C2: when the parsed import document has no `protein` key, `importData`
fails with the missing-required-sections error and the store is returned
identical — no key is written or deleted. -/
theorem import_missing_protein_rejected (st : Store) (d : ImportDoc)
    (docSize : Nat) (confirmed : Bool) (fails : String → String → Bool)
    (hp : d.protein = none) :
    (importData st (some d) docSize confirmed fails).1 = st ∧
      ∃ ms, (importData st (some d) docSize confirmed fails).2 =
          .error (.missingSection ms) ∧ "protein" ∈ ms := by
  have hmiss : (["water", "protein"].filter (fun s => !sectionPresent d s)) =
      (if d.water.isSome then ["protein"] else ["water", "protein"]) := by
    cases hw : d.water <;> simp [List.filter, sectionPresent, hp, hw]
  cases hw : d.water <;>
    simp only [importData, hmiss, hw, Option.isSome_none, Option.isSome_some,
      if_true, if_false, Bool.false_eq_true] <;>
    · refine ⟨rfl, ?_⟩
      simp

/-- Witness for C2: a concrete document with a `water` section but no
`protein` key is rejected with the missing-section error and the store
comes back unchanged. -/
theorem import_missing_protein_rejected_witness :
    (⟨none, some ⟨none, none, none⟩, none, none, none, none⟩ : ImportDoc).protein
        = none ∧
      ((importData [("x", "y")]
          (some ⟨none, some ⟨none, none, none⟩, none, none, none, none⟩) 0 true
          (fun _ _ => false)).1 = [("x", "y")] ∧
        ∃ ms, (importData [("x", "y")]
            (some ⟨none, some ⟨none, none, none⟩, none, none, none, none⟩) 0 true
            (fun _ _ => false)).2 = .error (.missingSection ms) ∧ "protein" ∈ ms) :=
  ⟨rfl, import_missing_protein_rejected _ _ _ _ _ rfl⟩

/-! ## C5: exportData's no-data guard

The code's guard is `!water.goal && !protein.goal && !habits.data`: it
never consults the intake (or history) keys, so a store holding only
intake data is refused although a tracker has produced data. -/

/-- Counterexample to C5 as stated: in a store holding only
`intake_water = "500"`, a tracker *has* produced intake data (the spec's
no-data condition is false), yet `exportData` fails with the no-data
error. -/
theorem export_nodata_iff_counterexample :
    exportFails [("intake_water", "500")] "2026-01-01T00:00:00.000Z" = true ∧
      specNoTrackerData [("intake_water", "500")] = false := by
  constructor <;> rfl

/-- C5 (amended): `exportData` fails with the no-data error iff the water
goal, protein goal and habits data entries are all absent or empty —
intake and history values are not consulted; otherwise it assembles the
versioned `{version, exportDate, water, protein, workout, habits,
settings}` document from the stored strings verbatim. -/
theorem export_nodata_guard (st : Store) (now : String) :
    (exportFails st now = true ↔
      (!jsTruthy (st.get "goal_water") && !jsTruthy (st.get "goal_protein") &&
        !jsTruthy (st.get "habits_data")) = true) ∧
    (exportFails st now = false →
      exportData st now = .ok
        { version := "2.0"
          exportDate := now
          water := ⟨st.get "goal_water", st.get "intake_water", st.get "history_water"⟩
          protein := ⟨st.get "goal_protein", st.get "intake_protein", st.get "history_protein"⟩
          workout := ⟨st.get "workout_state", st.get "workout_count", st.get "workout_history"⟩
          habits := ⟨st.get "habits_data"⟩
          settings := ⟨st.get "app_theme", st.get "global_reminder"⟩ }) := by
  by_cases h : (!jsTruthy (st.get "goal_water") && !jsTruthy (st.get "goal_protein") &&
      !jsTruthy (st.get "habits_data")) = true
  · refine ⟨?_, ?_⟩
    · simp only [exportFails, exportData, if_pos h]
      simpa using h
    · intro hf
      simp only [exportFails, exportData, if_pos h] at hf
      exact Bool.noConfusion hf
  · refine ⟨?_, ?_⟩
    · simp only [exportFails, exportData, if_neg h]
      simp [h]
    · intro _
      simp only [exportData, if_neg h]

/-- Witness for C5 (amended): a store holding only a water goal exports
successfully as the expected versioned document. -/
theorem export_nodata_guard_witness :
    exportFails [("goal_water", "2000")] "T" = false ∧
      exportData [("goal_water", "2000")] "T" = .ok
        { version := "2.0"
          exportDate := "T"
          water := ⟨some "2000", none, none⟩
          protein := ⟨none, none, none⟩
          workout := ⟨none, none, none⟩
          habits := ⟨none⟩
          settings := ⟨none, none⟩ } :=
  ⟨by rfl, by
    have h := (export_nodata_guard [("goal_water", "2000")] "T").2 (by rfl)
    simpa using h⟩

/-! ## C6: quota cleanup retains the 90 most recent date keys -/

/-- Filtering by a predicate on the key commutes with taking the keys. -/
theorem map_fst_filter {α : Type} (p : String → Bool) (l : List (String × α)) :
    (l.filter (fun kv => p kv.1)).map (·.1) = (l.map (·.1)).filter p := by
  induction l with
  | nil => rfl
  | cons a t ih => by_cases hp : p a.1 <;> simp [hp, ih]

/-- C6: on a date-keyed history object with more than 90 keys,
`cleanupOldData`'s standard-history branch reports pruning and retains
exactly 90 keys, every removed key being `≤` (i.e. no more recent than,
for well-formed `YYYY-MM-DD` keys) every retained key; an object with at
most 90 keys is left unchanged and contributes no pruning report. -/
theorem cleanup_retains_90_most_recent {α : Type} (h : List (String × α))
    (hnd : (h.map (·.1)).Nodup) :
    ((cleanupHistoryObject h).2 = decide (h.length > 90)) ∧
    (h.length ≤ 90 → (cleanupHistoryObject h).1 = h) ∧
    (h.length > 90 →
      (cleanupHistoryObject h).1.length = 90 ∧
      (cleanupHistoryObject h).1.Sublist h ∧
      ∀ p ∈ (cleanupHistoryObject h).1, ∀ q ∈ h,
        q.1 ∉ (cleanupHistoryObject h).1.map (·.1) → q.1 ≤ p.1) := by
  have hperm : List.Perm (List.insertionSort (· ≤ ·) (h.map (·.1))) (h.map (·.1)) :=
    List.perm_insertionSort _ _
  have hlen : (List.insertionSort (· ≤ ·) (h.map (·.1))).length = h.length := by
    rw [hperm.length_eq, List.length_map]
  by_cases hgt : h.length > 90
  case neg =>
    have hflag : cleanupHistoryObject h = (h, false) := by
      simp only [cleanupHistoryObject, hlen]
      rw [if_neg (by omega)]
    refine ⟨by rw [hflag]; simp; omega, fun _ => by rw [hflag], fun hc => absurd hc hgt⟩
  case pos =>
    set sorted := List.insertionSort (· ≤ ·) (h.map (·.1)) with hsorteddef
    set R := sorted.take (h.length - 90) with hRdef
    have hres : cleanupHistoryObject h =
        (h.filter (fun kv => !R.contains kv.1), true) := by
      simp only [cleanupHistoryObject, hlen]
      rw [if_pos (by omega)]
    have hsplit : R ++ sorted.drop (h.length - 90) = sorted :=
      List.take_append_drop _ _
    have hsortnd : sorted.Nodup := hperm.symm.nodup hnd
    have hsorted : List.Sorted (· ≤ ·) sorted := List.sorted_insertionSort _ _
    have hdisj : R.Disjoint (sorted.drop (h.length - 90)) := by
      have := List.nodup_append.mp (hsplit ▸ hsortnd)
      exact this.2.2
    have hRD : ∀ a ∈ R, ∀ b ∈ sorted.drop (h.length - 90), a ≤ b := by
      have hp : List.Pairwise (· ≤ ·) (R ++ sorted.drop (h.length - 90)) := by
        rw [hsplit]; exact hsorted
      exact (List.pairwise_append.mp hp).2.2
    have hkeys : (h.filter (fun kv => !R.contains kv.1)).map (·.1) =
        (h.map (·.1)).filter (fun k => !R.contains k) :=
      map_fst_filter (fun k => !R.contains k) h
    refine ⟨by rw [hres]; simp; omega, fun hle => by omega, fun _ => ?_⟩
    rw [hres]
    refine ⟨?_, List.filter_sublist h, ?_⟩
    · have h1 : (h.filter (fun kv => !R.contains kv.1)).length =
          ((h.map (·.1)).filter (fun k => !R.contains k)).length := by
        rw [← hkeys, List.length_map]
      have h2 : ((h.map (·.1)).filter (fun k => !R.contains k)).length =
          ((sorted.filter (fun k => !R.contains k))).length :=
        ((hperm.filter _).length_eq).symm
      have h3 : sorted.filter (fun k => !R.contains k) =
          sorted.drop (h.length - 90) := by
        conv_lhs => rw [← hsplit]
        rw [List.filter_append]
        have hR0 : R.filter (fun k => !R.contains k) = [] := by
          rw [List.filter_eq_nil_iff]
          intro a ha
          simp [ha]
        have hD1 : (sorted.drop (h.length - 90)).filter
            (fun k => !R.contains k) = sorted.drop (h.length - 90) := by
          rw [List.filter_eq_self]
          intro a ha
          simp
          exact fun hc => hdisj hc ha
        rw [hR0, hD1, List.nil_append]
      rw [h1, h2, h3, List.length_drop]
      omega
    · intro p hp q hq hqnot
      have hpmem : p ∈ h := (List.mem_filter.mp hp).1
      have hpnotR : p.1 ∉ R := by
        have := (List.mem_filter.mp hp).2
        simp at this
        exact this
      have hpD : p.1 ∈ sorted.drop (h.length - 90) := by
        have hpkeys : p.1 ∈ h.map (·.1) := List.mem_map_of_mem _ hpmem
        have : p.1 ∈ sorted := hperm.mem_iff.mpr hpkeys
        rcases List.mem_append.mp (hsplit ▸ this) with hr | hd
        · exact absurd hr hpnotR
        · exact hd
      have hqR : q.1 ∈ R := by
        by_contra hqR
        apply hqnot
        rw [hkeys]
        refine List.mem_filter.mpr ⟨List.mem_map_of_mem _ hq, ?_⟩
        simp
        exact hqR
      exact hRD _ hqR _ hpD

/-- Witness for C6: a concrete 120-key history object (well-formed
`YYYY-MM-DD` keys) is pruned to exactly 90 keys with pruning reported. -/
theorem cleanup_retains_90_most_recent_witness :
    ((dates120.map (fun d => (d, 0))).map (·.1)).Nodup ∧
      ((cleanupHistoryObject (dates120.map (fun d => (d, 0)))).2 =
          decide ((dates120.map (fun d => (d, (0 : Nat)))).length > 90) ∧
        ((dates120.map (fun d => (d, (0 : Nat)))).length ≤ 90 →
          (cleanupHistoryObject (dates120.map (fun d => (d, 0)))).1 =
            dates120.map (fun d => (d, 0))) ∧
        ((dates120.map (fun d => (d, (0 : Nat)))).length > 90 →
          (cleanupHistoryObject (dates120.map (fun d => (d, 0)))).1.length = 90 ∧
          (cleanupHistoryObject (dates120.map (fun d => (d, 0)))).1.Sublist
            (dates120.map (fun d => (d, 0))) ∧
          ∀ p ∈ (cleanupHistoryObject (dates120.map (fun d => (d, 0)))).1,
            ∀ q ∈ dates120.map (fun d => (d, (0 : Nat))),
              q.1 ∉ (cleanupHistoryObject
                  (dates120.map (fun d => (d, 0)))).1.map (·.1) →
                q.1 ≤ p.1)) :=
  ⟨by decide, cleanup_retains_90_most_recent _ (by decide)⟩

/-! ## Lemmas about JS-object association lists -/

/-- Modifying the binding of `k` maps the stored value at `k`. -/
theorem lookupA_modifyA_self {α : Type} (l : List (String × α)) (k : String)
    (f : α → α) : lookupA (modifyA l k f) k = (lookupA l k).map f := by
  induction l with
  | nil => rfl
  | cons p rest ih =>
    by_cases hpk : p.1 = k <;> simp [lookupA, modifyA, hpk, ih]

/-- Modifying the binding of `k` leaves every other key's value alone. -/
theorem lookupA_modifyA_ne {α : Type} (l : List (String × α)) (k : String)
    (f : α → α) (j : String) (hjk : j ≠ k) :
    lookupA (modifyA l k f) j = lookupA l j := by
  induction l with
  | nil => rfl
  | cons p rest ih =>
    by_cases hpk : p.1 = k <;> by_cases hpj : p.1 = j <;>
      simp [lookupA, modifyA, hpk, hpj, ih] <;> simp_all

/-- A key's presence flag agrees with `lookupA`. -/
theorem anyKey_eq_isSome {α : Type} (l : List (String × α)) (k : String) :
    l.any (fun p => p.1 == k) = (lookupA l k).isSome := by
  induction l with
  | nil => rfl
  | cons p rest ih =>
    by_cases hpk : p.1 = k <;> simp [lookupA, hpk, ih]

/-- Lookup over concatenation takes the first list's binding when present. -/
theorem lookupA_append {α : Type} (l₁ l₂ : List (String × α)) (k : String) :
    lookupA (l₁ ++ l₂) k =
      match lookupA l₁ k with
      | some v => some v
      | none => lookupA l₂ k := by
  induction l₁ with
  | nil => rfl
  | cons p rest ih =>
    by_cases hpk : p.1 = k <;> simp [lookupA, hpk, ih]

/-- JS assignment `obj[k] = v`: afterwards `k` holds `v` and no other key
changed. -/
theorem lookupA_setA {α : Type} (l : List (String × α)) (k : String) (v : α)
    (j : String) :
    lookupA (setA l k v) j = if j = k then some v else lookupA l j := by
  unfold setA
  by_cases hany : l.any (fun p => p.1 == k) = true
  · rw [if_pos hany]
    by_cases hjk : j = k
    · subst hjk
      rw [lookupA_modifyA_self]
      rw [anyKey_eq_isSome] at hany
      obtain ⟨w, hw⟩ := Option.isSome_iff_exists.mp hany
      rw [hw]
      simp
    · rw [lookupA_modifyA_ne _ _ _ _ hjk, if_neg hjk]
  · rw [if_neg hany, lookupA_append]
    by_cases hjk : j = k
    · subst hjk
      rw [anyKey_eq_isSome] at hany
      have : lookupA l j = none := by
        cases h : lookupA l j with
        | none => rfl
        | some w => rw [h] at hany; simp at hany
      rw [this]
      simp [lookupA]
    · rw [if_neg hjk]
      cases h : lookupA l j with
      | none => simp [lookupA, Ne.symm hjk]
      | some w => rfl

/-- A fold of per-key modifications never touches a key outside the list. -/
theorem lookupA_foldl_modifyA_not_mem {α : Type} (tys : List String)
    (g : String → α → α) (l : List (String × α)) (ty : String)
    (hty : ty ∉ tys) :
    lookupA (tys.foldl (fun acc u => modifyA acc u (g u)) l) ty = lookupA l ty := by
  induction tys generalizing l with
  | nil => rfl
  | cons u rest ih =>
    simp only [List.mem_cons, not_or] at hty
    simp only [List.foldl_cons]
    rw [ih _ hty.2, lookupA_modifyA_ne _ _ _ _ hty.1]

/-- A fold of per-key modifications over distinct keys rewrites each listed
key's value exactly once. -/
theorem lookupA_foldl_modifyA {α : Type} (tys : List String)
    (g : String → α → α) (l : List (String × α)) (ty : String)
    (hnd : tys.Nodup) (hty : ty ∈ tys) :
    lookupA (tys.foldl (fun acc u => modifyA acc u (g u)) l) ty =
      (lookupA l ty).map (g ty) := by
  induction tys generalizing l with
  | nil => cases hty
  | cons u rest ih =>
    simp only [List.foldl_cons]
    rcases List.mem_cons.mp hty with hu | hrest
    · subst hu
      rw [lookupA_foldl_modifyA_not_mem _ _ _ _ (List.nodup_cons.mp hnd).1,
        lookupA_modifyA_self]
    · rw [ih _ (List.nodup_cons.mp hnd).2 hrest]
      by_cases hne : ty = u
      · subst hne
        exact absurd hrest (List.nodup_cons.mp hnd).1
      · rw [lookupA_modifyA_ne _ _ _ _ hne]

/-- A fold of per-key assignments never touches a key outside the list. -/
theorem lookupA_foldl_setA_not_mem {α : Type} (tys : List String) (v : α)
    (l : List (String × α)) (ty : String) (hty : ty ∉ tys) :
    lookupA (tys.foldl (fun acc u => setA acc u v) l) ty = lookupA l ty := by
  induction tys generalizing l with
  | nil => rfl
  | cons u rest ih =>
    simp only [List.mem_cons, not_or] at hty
    simp only [List.foldl_cons]
    rw [ih _ hty.2, lookupA_setA, if_neg hty.1]

/-- A fold of per-key assignments over distinct keys sets each listed key. -/
theorem lookupA_foldl_setA {α : Type} (tys : List String) (v : α)
    (l : List (String × α)) (ty : String) (hnd : tys.Nodup) (hty : ty ∈ tys) :
    lookupA (tys.foldl (fun acc u => setA acc u v) l) ty = some v := by
  induction tys generalizing l with
  | nil => cases hty
  | cons u rest ih =>
    simp only [List.foldl_cons]
    rcases List.mem_cons.mp hty with hu | hrest
    · subst hu
      rw [lookupA_foldl_setA_not_mem _ _ _ _ (List.nodup_cons.mp hnd).1,
        lookupA_setA, if_pos rfl]
    · exact ih _ (List.nodup_cons.mp hnd).2 hrest

/-- Deleting a key: afterwards it is absent. -/
theorem lookupA_filter_self {α : Type} (l : List (String × α)) (k : String) :
    lookupA (l.filter (fun p => !(p.1 == k))) k = none := by
  induction l with
  | nil => rfl
  | cons p rest ih =>
    by_cases hpk : p.1 = k <;> simp [lookupA, hpk, ih]

/-- Deleting a key leaves every other key's value alone. -/
theorem lookupA_filter_ne {α : Type} (l : List (String × α)) (k : String)
    (j : String) (hjk : j ≠ k) :
    lookupA (l.filter (fun p => !(p.1 == k))) j = lookupA l j := by
  induction l with
  | nil => rfl
  | cons p rest ih =>
    by_cases hpk : p.1 = k
    · have hpj : p.1 ≠ j := by rw [hpk]; exact Ne.symm hjk
      simp [lookupA, hpk, hpj, ih, Ne.symm hjk]
    · by_cases hpj : p.1 = j <;> simp [List.filter_cons, lookupA, hpk, hpj, hjk, ih]

/-! ## Lemmas about the workout resets -/

/-- The canonical workout types are distinct. -/
theorem workoutTypes_nodup : workoutTypes.Nodup := by decide

/-- After `resetWorkoutTabs`, every canonical type present in the state is
incomplete with its canonical order index. -/
theorem resetWorkoutTabs_workoutState (t : WTracker) (ty : String)
    (hty : ty ∈ workoutTypes) (hs : (lookupA t.workoutState ty).isSome) :
    lookupA (resetWorkoutTabs t).workoutState ty =
      some ⟨false, workoutTypes.indexOf ty⟩ := by
  show lookupA (workoutTypes.foldl
    (fun acc u => modifyA acc u (resetStateFn u)) t.workoutState) ty = _
  rw [lookupA_foldl_modifyA workoutTypes resetStateFn t.workoutState ty
    workoutTypes_nodup hty]
  obtain ⟨w, hw⟩ := Option.isSome_iff_exists.mp hs
  rw [hw]
  rfl

/-- After `resetWorkoutTabs`, every canonical type's count is zero. -/
theorem resetWorkoutTabs_workoutCounts (t : WTracker) (ty : String)
    (hty : ty ∈ workoutTypes) :
    lookupA (resetWorkoutTabs t).workoutCounts ty = some 0 := by
  show lookupA (workoutTypes.foldl
    (fun acc u => setA acc u 0) t.workoutCounts) ty = _
  exact lookupA_foldl_setA workoutTypes 0 t.workoutCounts ty workoutTypes_nodup hty

/-- `resetWorkoutTabs` leaves the history object untouched. -/
theorem resetWorkoutTabs_workoutHistory (t : WTracker) :
    (resetWorkoutTabs t).workoutHistory = t.workoutHistory := rfl

/-- `resetWorkoutTabs` leaves the stored reset marker untouched. -/
theorem resetWorkoutTabs_lastReset (t : WTracker) :
    (resetWorkoutTabs t).lastReset = t.lastReset := rfl

/-- `resetDailyWorkouts` touches only the history beyond `resetWorkoutTabs`. -/
theorem resetDailyWorkouts_workoutState (t : WTracker) (today : String) :
    (resetDailyWorkouts t today).workoutState = (resetWorkoutTabs t).workoutState := by
  simp only [resetDailyWorkouts]
  split <;> rfl

/-- `resetDailyWorkouts` keeps `resetWorkoutTabs`'s counts. -/
theorem resetDailyWorkouts_workoutCounts (t : WTracker) (today : String) :
    (resetDailyWorkouts t today).workoutCounts = (resetWorkoutTabs t).workoutCounts := by
  simp only [resetDailyWorkouts]
  split <;> rfl

/-- After `resetDailyWorkouts`, today's history bucket is gone. -/
theorem resetDailyWorkouts_history_today (t : WTracker) (today : String) :
    lookupA (resetDailyWorkouts t today).workoutHistory today = none := by
  simp only [resetDailyWorkouts]
  split
  case isTrue h =>
    exact lookupA_filter_self _ _
  case isFalse h =>
    rw [resetWorkoutTabs_workoutHistory] at h ⊢
    exact Option.not_isSome_iff_eq_none.mp h

/-- `resetDailyWorkouts` leaves every other day's history bucket alone. -/
theorem resetDailyWorkouts_history_other (t : WTracker) (today d : String)
    (hd : d ≠ today) :
    lookupA (resetDailyWorkouts t today).workoutHistory d =
      lookupA t.workoutHistory d := by
  simp only [resetDailyWorkouts]
  split
  · exact lookupA_filter_ne _ _ _ hd
  · rfl

/-! ## C7: user reset versus daily-rollover reset -/

/-- C7: `resetWorkoutTabs` (the user-triggered, history-keeping reset)
clears every canonical type's completion, restores its canonical order
index and zeroes its count while leaving the whole history mapping —
today's bucket included — untouched; `resetDailyWorkouts` (the rollover
reset) does the same and additionally deletes today's history bucket,
leaving every other day's bucket alone. -/
theorem reset_frame_effects (t : WTracker) (today : String)
    (hs : ∀ ty ∈ workoutTypes, (lookupA t.workoutState ty).isSome) :
    (∀ ty ∈ workoutTypes,
      lookupA (resetWorkoutTabs t).workoutState ty =
          some ⟨false, workoutTypes.indexOf ty⟩ ∧
        lookupA (resetWorkoutTabs t).workoutCounts ty = some 0) ∧
    (resetWorkoutTabs t).workoutHistory = t.workoutHistory ∧
    (∀ ty ∈ workoutTypes,
      lookupA (resetDailyWorkouts t today).workoutState ty =
          some ⟨false, workoutTypes.indexOf ty⟩ ∧
        lookupA (resetDailyWorkouts t today).workoutCounts ty = some 0) ∧
    lookupA (resetDailyWorkouts t today).workoutHistory today = none ∧
    (∀ d, d ≠ today →
      lookupA (resetDailyWorkouts t today).workoutHistory d =
        lookupA t.workoutHistory d) := by
  refine ⟨fun ty hty => ⟨resetWorkoutTabs_workoutState t ty hty (hs ty hty),
      resetWorkoutTabs_workoutCounts t ty hty⟩,
    resetWorkoutTabs_workoutHistory t,
    fun ty hty => ⟨?_, ?_⟩,
    resetDailyWorkouts_history_today t today,
    fun d hd => resetDailyWorkouts_history_other t today d hd⟩
  · rw [resetDailyWorkouts_workoutState]
    exact resetWorkoutTabs_workoutState t ty hty (hs ty hty)
  · rw [resetDailyWorkouts_workoutCounts]
    exact resetWorkoutTabs_workoutCounts t ty hty

/-- A concrete tracker used to instantiate the workout theorems: `Back`
completed with three clicks, one history bucket for 2026-01-01. -/
def tSample : WTracker :=
  { workoutState := workoutTypes.map
      (fun ty => (ty, ⟨ty == "Back", workoutTypes.indexOf ty⟩))
    workoutCounts := workoutTypes.map
      (fun ty => (ty, if ty == "Back" then 3 else 0))
    workoutHistory := [("2026-01-01", [⟨"Back", 3, "T0"⟩])]
    lastReset := some "2026-01-01" }

/-- Witness for C7 at the concrete tracker `tSample` and
`today = "2026-01-01"`. -/
theorem reset_frame_effects_witness :
    (∀ ty ∈ workoutTypes, (lookupA tSample.workoutState ty).isSome) ∧
      ((∀ ty ∈ workoutTypes,
        lookupA (resetWorkoutTabs tSample).workoutState ty =
            some ⟨false, workoutTypes.indexOf ty⟩ ∧
          lookupA (resetWorkoutTabs tSample).workoutCounts ty = some 0) ∧
      (resetWorkoutTabs tSample).workoutHistory = tSample.workoutHistory ∧
      (∀ ty ∈ workoutTypes,
        lookupA (resetDailyWorkouts tSample "2026-01-01").workoutState ty =
            some ⟨false, workoutTypes.indexOf ty⟩ ∧
          lookupA (resetDailyWorkouts tSample "2026-01-01").workoutCounts ty = some 0) ∧
      lookupA (resetDailyWorkouts tSample "2026-01-01").workoutHistory "2026-01-01" =
        none ∧
      (∀ d, d ≠ "2026-01-01" →
        lookupA (resetDailyWorkouts tSample "2026-01-01").workoutHistory d =
          lookupA tSample.workoutHistory d)) :=
  ⟨by decide, reset_frame_effects tSample "2026-01-01" (by decide)⟩

/-! ## C3: daily rollover fires iff the marker is stale, and only once -/

/-- C3: `checkAndResetDailyWorkouts` performs the reset branch exactly when
the stored last-reset marker differs from today; afterwards the marker is
today, so an immediate second call on the same date does nothing at all;
when the branch runs (however stale the marker) it performs one catch-up
reset: completion cleared, orders canonical, counts zeroed, today's
history bucket removed. -/
theorem rollover_iff_stale_and_idempotent (t : WTracker) (today : String)
    (hs : ∀ ty ∈ workoutTypes, (lookupA t.workoutState ty).isSome) :
    ((checkAndResetDailyWorkouts t today).2 = true ↔ t.lastReset ≠ some today) ∧
    (checkAndResetDailyWorkouts t today).1.lastReset = some today ∧
    checkAndResetDailyWorkouts (checkAndResetDailyWorkouts t today).1 today =
      ((checkAndResetDailyWorkouts t today).1, false) ∧
    ((checkAndResetDailyWorkouts t today).2 = false →
      (checkAndResetDailyWorkouts t today).1 = t) ∧
    ((checkAndResetDailyWorkouts t today).2 = true →
      ∀ ty ∈ workoutTypes,
        lookupA (checkAndResetDailyWorkouts t today).1.workoutState ty =
            some ⟨false, workoutTypes.indexOf ty⟩ ∧
          lookupA (checkAndResetDailyWorkouts t today).1.workoutCounts ty = some 0 ∧
          lookupA (checkAndResetDailyWorkouts t today).1.workoutHistory today = none) := by
  by_cases hm : t.lastReset = some today
  · refine ⟨by simp [checkAndResetDailyWorkouts, hm], ?_, ?_, ?_, ?_⟩
    · simp [checkAndResetDailyWorkouts, hm]
    · simp [checkAndResetDailyWorkouts, hm]
    · intro _
      simp [checkAndResetDailyWorkouts, hm]
    · intro hcon
      simp [checkAndResetDailyWorkouts, hm] at hcon
  · have hrun : checkAndResetDailyWorkouts t today =
        ({ resetDailyWorkouts t today with lastReset := some today }, true) := by
      simp [checkAndResetDailyWorkouts, hm]
    refine ⟨by simp [hrun, hm], by simp [hrun], ?_, ?_, ?_⟩
    · rw [hrun]
      simp [checkAndResetDailyWorkouts]
    · intro hcon
      rw [hrun] at hcon
      simp at hcon
    · intro _ ty hty
      rw [hrun]
      refine ⟨?_, ?_, ?_⟩
      · show lookupA (resetDailyWorkouts t today).workoutState ty = _
        rw [resetDailyWorkouts_workoutState]
        exact resetWorkoutTabs_workoutState t ty hty (hs ty hty)
      · show lookupA (resetDailyWorkouts t today).workoutCounts ty = _
        rw [resetDailyWorkouts_workoutCounts]
        exact resetWorkoutTabs_workoutCounts t ty hty
      · show lookupA (resetDailyWorkouts t today).workoutHistory today = _
        exact resetDailyWorkouts_history_today t today

/-- Witness for C3: the concrete tracker whose marker reads 2026-01-01,
checked on 2026-01-05 (a several-days-stale marker). -/
theorem rollover_iff_stale_and_idempotent_witness :
    (∀ ty ∈ workoutTypes, (lookupA tSample.workoutState ty).isSome) ∧
      (((checkAndResetDailyWorkouts tSample "2026-01-05").2 = true ↔
        tSample.lastReset ≠ some "2026-01-05") ∧
      (checkAndResetDailyWorkouts tSample "2026-01-05").1.lastReset =
        some "2026-01-05" ∧
      checkAndResetDailyWorkouts
          (checkAndResetDailyWorkouts tSample "2026-01-05").1 "2026-01-05" =
        ((checkAndResetDailyWorkouts tSample "2026-01-05").1, false) ∧
      ((checkAndResetDailyWorkouts tSample "2026-01-05").2 = false →
        (checkAndResetDailyWorkouts tSample "2026-01-05").1 = tSample) ∧
      ((checkAndResetDailyWorkouts tSample "2026-01-05").2 = true →
        ∀ ty ∈ workoutTypes,
          lookupA (checkAndResetDailyWorkouts tSample "2026-01-05").1.workoutState
              ty = some ⟨false, workoutTypes.indexOf ty⟩ ∧
            lookupA (checkAndResetDailyWorkouts
                tSample "2026-01-05").1.workoutCounts ty = some 0 ∧
            lookupA (checkAndResetDailyWorkouts
                tSample "2026-01-05").1.workoutHistory "2026-01-05" = none)) :=
  ⟨by decide, rollover_iff_stale_and_idempotent tSample "2026-01-05" (by decide)⟩

/-! ## Lemmas about saveWorkoutHistory and the all-complete check -/

/-- `saveWorkoutHistory` only touches the history object. -/
theorem saveWorkoutHistory_state (t : WTracker) (type today now : String) :
    (saveWorkoutHistory t type today now).workoutState = t.workoutState := rfl

/-- `saveWorkoutHistory` leaves the counts alone. -/
theorem saveWorkoutHistory_counts (t : WTracker) (type today now : String) :
    (saveWorkoutHistory t type today now).workoutCounts = t.workoutCounts := rfl

/-- `saveWorkoutHistory` appends exactly one entry — the type, its current
click count and the timestamp — to today's bucket (created when absent). -/
theorem saveWorkoutHistory_today (t : WTracker) (type today now : String) :
    lookupA (saveWorkoutHistory t type today now).workoutHistory today =
      some ((lookupA t.workoutHistory today).getD [] ++
        [⟨type, (lookupA t.workoutCounts type).getD 0, now⟩]) := by
  simp only [saveWorkoutHistory]
  cases h : lookupA t.workoutHistory today with
  | none =>
    simp only [h, Option.isNone_none, if_true]
    rw [lookupA_modifyA_self, lookupA_append, h]
    simp [lookupA]
  | some w =>
    simp only [h, Option.isNone_some, Bool.false_eq_true, if_false]
    rw [lookupA_modifyA_self, h]
    simp

/-- `saveWorkoutHistory` leaves every other day's bucket alone. -/
theorem saveWorkoutHistory_other (t : WTracker) (type today now d : String)
    (hd : d ≠ today) :
    lookupA (saveWorkoutHistory t type today now).workoutHistory d =
      lookupA t.workoutHistory d := by
  simp only [saveWorkoutHistory]
  cases h : lookupA t.workoutHistory today with
  | none =>
    simp only [h, Option.isNone_none, if_true]
    rw [lookupA_modifyA_ne _ _ _ _ hd, lookupA_append]
    cases hld : lookupA t.workoutHistory d with
    | some w => rfl
    | none => simp [lookupA, Ne.symm hd]
  | some w =>
    simp only [h, Option.isNone_some, Bool.false_eq_true, if_false]
    exact lookupA_modifyA_ne _ _ _ _ hd

/-- The `every(state => state.completed)` check after marking `type`
complete holds exactly when every other entry was already complete. -/
theorem all_completed_modifyA (l : List (String × WState)) (type : String) :
    ((modifyA l type (fun s => { s with completed := true })).all
        (fun p => p.2.completed)) = true ↔
      ∀ p ∈ l, p.1 = type ∨ p.2.completed = true := by
  induction l with
  | nil => simp [modifyA]
  | cons p rest ih =>
    by_cases hpt : p.1 = type <;> simp [modifyA, hpt, ih]

/-! ## C4: the all-complete transition -/

/-- C4: a `toggleWorkout` call signals the distinct all-complete event (as
opposed to the ordinary toggle event) exactly when, after marking the
clicked type complete, every entry of `workoutState` is complete; in that
case the call performs the reset of state and counts — every canonical
type incomplete with canonical order, every count zero — while the history
still holds today's freshly appended entry and every other day's bucket
untouched. -/
theorem toggle_all_complete (t : WTracker) (type today now : String)
    (hs : ∀ ty ∈ workoutTypes, (lookupA t.workoutState ty).isSome) :
    ((toggleWorkout t type today now).2 = WEvent.allComplete ↔
      ∀ p ∈ t.workoutState, p.1 = type ∨ p.2.completed = true) ∧
    ((toggleWorkout t type today now).2 = WEvent.allComplete →
      (∀ ty ∈ workoutTypes,
        lookupA (toggleWorkout t type today now).1.workoutState ty =
            some ⟨false, workoutTypes.indexOf ty⟩ ∧
          lookupA (toggleWorkout t type today now).1.workoutCounts ty = some 0) ∧
      lookupA (toggleWorkout t type today now).1.workoutHistory today =
        some ((lookupA t.workoutHistory today).getD [] ++
          [⟨type, ((lookupA t.workoutCounts type).map (· + 1)).getD 0, now⟩]) ∧
      (∀ d, d ≠ today →
        lookupA (toggleWorkout t type today now).1.workoutHistory d =
          lookupA t.workoutHistory d)) := by
  simp only [toggleWorkout, saveWorkoutHistory_state]
  by_cases hall : ((modifyA t.workoutState type
      (fun s => { s with completed := true })).all (fun p => p.2.completed)) = true
  · rw [if_pos hall]
    refine ⟨by simpa using (all_completed_modifyA t.workoutState type).mp hall, ?_⟩
    intro _
    refine ⟨fun ty hty => ⟨?_, resetWorkoutTabs_workoutCounts _ ty hty⟩, ?_, ?_⟩
    · refine resetWorkoutTabs_workoutState _ ty hty ?_
      show (lookupA (modifyA t.workoutState type
        (fun s => { s with completed := true })) ty).isSome
      by_cases hty2 : ty = type
      · subst hty2
        rw [lookupA_modifyA_self]
        obtain ⟨w, hw⟩ := Option.isSome_iff_exists.mp (hs ty hty)
        rw [hw]
        rfl
      · rw [lookupA_modifyA_ne _ _ _ _ hty2]
        exact hs ty hty
    · show lookupA (saveWorkoutHistory _ type today now).workoutHistory today = _
      rw [saveWorkoutHistory_today]
      show some ((lookupA t.workoutHistory today).getD [] ++
        [⟨type, (lookupA (modifyA t.workoutCounts type (· + 1)) type).getD 0, now⟩]) = _
      rw [lookupA_modifyA_self]
    · intro d hd
      show lookupA (saveWorkoutHistory _ type today now).workoutHistory d = _
      rw [saveWorkoutHistory_other _ _ _ _ _ hd]
  · rw [if_neg hall]
    constructor
    · constructor
      · intro hev
        exact absurd hev (by simp)
      · intro hcompl
        exact absurd ((all_completed_modifyA t.workoutState type).mpr hcompl) hall
    · intro hev
      exact absurd hev (by simp)

/-- A concrete tracker with every type but `Chest` complete. -/
def tAllButChest : WTracker :=
  { workoutState := workoutTypes.map
      (fun ty => (ty, ⟨ty != "Chest", workoutTypes.indexOf ty⟩))
    workoutCounts := workoutTypes.map (fun ty => (ty, 1))
    workoutHistory := []
    lastReset := some "2026-01-02" }

/-- Witness for C4: toggling `Chest` on `tAllButChest` fires the
all-complete transition. -/
theorem toggle_all_complete_witness :
    (∀ ty ∈ workoutTypes, (lookupA tAllButChest.workoutState ty).isSome) ∧
      (((toggleWorkout tAllButChest "Chest" "2026-01-02" "T").2 =
          WEvent.allComplete ↔
        ∀ p ∈ tAllButChest.workoutState, p.1 = "Chest" ∨ p.2.completed = true) ∧
      ((toggleWorkout tAllButChest "Chest" "2026-01-02" "T").2 =
          WEvent.allComplete →
        (∀ ty ∈ workoutTypes,
          lookupA (toggleWorkout tAllButChest "Chest" "2026-01-02"
                "T").1.workoutState ty =
              some ⟨false, workoutTypes.indexOf ty⟩ ∧
            lookupA (toggleWorkout tAllButChest "Chest" "2026-01-02"
                "T").1.workoutCounts ty = some 0) ∧
        lookupA (toggleWorkout tAllButChest "Chest" "2026-01-02"
            "T").1.workoutHistory "2026-01-02" =
          some ((lookupA tAllButChest.workoutHistory "2026-01-02").getD [] ++
            [⟨"Chest", ((lookupA tAllButChest.workoutCounts "Chest").map
              (· + 1)).getD 0, "T"⟩]) ∧
        (∀ d, d ≠ "2026-01-02" →
          lookupA (toggleWorkout tAllButChest "Chest" "2026-01-02"
              "T").1.workoutHistory d =
            lookupA tAllButChest.workoutHistory d))) :=
  ⟨by decide, toggle_all_complete tAllButChest "Chest" "2026-01-02" "T" (by decide)⟩

/-! ## C9: the Chest first-click scenario -/

/-- C9: with `workoutCounts['Chest'] = 0`, `Chest` incomplete and some
other type still incomplete, `toggleWorkout('Chest')` signals an ordinary
toggle, leaves `workoutCounts['Chest'] = 1` and
`workoutState['Chest'].completed = true`, and appends exactly one history
entry `{type: 'Chest', count: 1, timestamp: now}` to today's bucket,
leaving every other day's bucket untouched. -/
theorem toggle_chest_first_click (t : WTracker) (today now : String)
    (hc : lookupA t.workoutCounts "Chest" = some 0)
    (s : WState) (hst : lookupA t.workoutState "Chest" = some s)
    (hsc : s.completed = false)
    (hother : ∃ p ∈ t.workoutState, p.1 ≠ "Chest" ∧ p.2.completed = false) :
    (toggleWorkout t "Chest" today now).2 = WEvent.toggled ∧
    lookupA (toggleWorkout t "Chest" today now).1.workoutCounts "Chest" = some 1 ∧
    (lookupA (toggleWorkout t "Chest" today now).1.workoutState "Chest").map
      (·.completed) = some true ∧
    lookupA (toggleWorkout t "Chest" today now).1.workoutHistory today =
      some ((lookupA t.workoutHistory today).getD [] ++ [⟨"Chest", 1, now⟩]) ∧
    (∀ d, d ≠ today →
      lookupA (toggleWorkout t "Chest" today now).1.workoutHistory d =
        lookupA t.workoutHistory d) := by
  have hall : ¬ ((modifyA t.workoutState "Chest"
      (fun s => { s with completed := true })).all (fun p => p.2.completed)) = true := by
    intro h
    obtain ⟨p, hp, hne, hcomp⟩ := hother
    rcases (all_completed_modifyA t.workoutState "Chest").mp h p hp with he | hc2
    · exact hne he
    · rw [hcomp] at hc2
      exact Bool.noConfusion hc2
  simp only [toggleWorkout, saveWorkoutHistory_state]
  rw [if_neg hall]
  refine ⟨rfl, ?_, ?_, ?_, ?_⟩
  · show lookupA (modifyA t.workoutCounts "Chest" (· + 1)) "Chest" = some 1
    rw [lookupA_modifyA_self, hc]
    rfl
  · show (lookupA (modifyA t.workoutState "Chest"
      (fun s => { s with completed := true })) "Chest").map (·.completed) = some true
    rw [lookupA_modifyA_self, hst]
    rfl
  · show lookupA (saveWorkoutHistory _ "Chest" today now).workoutHistory today = _
    rw [saveWorkoutHistory_today]
    show some ((lookupA t.workoutHistory today).getD [] ++
      [⟨"Chest", (lookupA (modifyA t.workoutCounts "Chest" (· + 1)) "Chest").getD 0,
        now⟩]) = _
    rw [lookupA_modifyA_self, hc]
    rfl
  · intro d hd
    show lookupA (saveWorkoutHistory _ "Chest" today now).workoutHistory d = _
    rw [saveWorkoutHistory_other _ _ _ _ _ hd]

/-- Witness for C9 at the concrete tracker `tSample` (Chest count 0 and
incomplete, Back complete, the rest incomplete). -/
theorem toggle_chest_first_click_witness :
    (lookupA tSample.workoutCounts "Chest" = some 0 ∧
      lookupA tSample.workoutState "Chest" = some ⟨false, 0⟩ ∧
      (∃ p ∈ tSample.workoutState, p.1 ≠ "Chest" ∧ p.2.completed = false)) ∧
      ((toggleWorkout tSample "Chest" "2026-01-01" "T1").2 = WEvent.toggled ∧
      lookupA (toggleWorkout tSample "Chest" "2026-01-01"
        "T1").1.workoutCounts "Chest" = some 1 ∧
      (lookupA (toggleWorkout tSample "Chest" "2026-01-01"
        "T1").1.workoutState "Chest").map (·.completed) = some true ∧
      lookupA (toggleWorkout tSample "Chest" "2026-01-01"
          "T1").1.workoutHistory "2026-01-01" =
        some ((lookupA tSample.workoutHistory "2026-01-01").getD [] ++
          [⟨"Chest", 1, "T1"⟩]) ∧
      (∀ d, d ≠ "2026-01-01" →
        lookupA (toggleWorkout tSample "Chest" "2026-01-01"
            "T1").1.workoutHistory d = lookupA tSample.workoutHistory d)) :=
  ⟨⟨by decide, by decide, by decide⟩,
    toggle_chest_first_click tSample "2026-01-01" "T1" (by decide) ⟨false, 0⟩
      (by decide) rfl (by decide)⟩

/-! ## C10: toggling never clears completion -/

/-- C10: calling `toggleWorkout` on a type whose flag is already `true`
(while some other type is still incomplete) keeps the flag `true`,
increments the click count by one, and appends one more history entry for
today — the operation is one-way despite its name. -/
theorem toggle_is_one_way (t : WTracker) (ty today now : String) (c : Nat)
    (hc : lookupA t.workoutCounts ty = some c)
    (s : WState) (hst : lookupA t.workoutState ty = some s)
    (hsc : s.completed = true)
    (hother : ∃ p ∈ t.workoutState, p.1 ≠ ty ∧ p.2.completed = false) :
    (toggleWorkout t ty today now).2 = WEvent.toggled ∧
    (lookupA (toggleWorkout t ty today now).1.workoutState ty).map (·.completed) =
      some true ∧
    lookupA (toggleWorkout t ty today now).1.workoutCounts ty = some (c + 1) ∧
    lookupA (toggleWorkout t ty today now).1.workoutHistory today =
      some ((lookupA t.workoutHistory today).getD [] ++ [⟨ty, c + 1, now⟩]) ∧
    (∀ d, d ≠ today →
      lookupA (toggleWorkout t ty today now).1.workoutHistory d =
        lookupA t.workoutHistory d) := by
  have hall : ¬ ((modifyA t.workoutState ty
      (fun s => { s with completed := true })).all (fun p => p.2.completed)) = true := by
    intro h
    obtain ⟨p, hp, hne, hcomp⟩ := hother
    rcases (all_completed_modifyA t.workoutState ty).mp h p hp with he | hc2
    · exact hne he
    · rw [hcomp] at hc2
      exact Bool.noConfusion hc2
  simp only [toggleWorkout, saveWorkoutHistory_state]
  rw [if_neg hall]
  refine ⟨rfl, ?_, ?_, ?_, ?_⟩
  · show (lookupA (modifyA t.workoutState ty
      (fun s => { s with completed := true })) ty).map (·.completed) = some true
    rw [lookupA_modifyA_self, hst]
    rfl
  · show lookupA (modifyA t.workoutCounts ty (· + 1)) ty = some (c + 1)
    rw [lookupA_modifyA_self, hc]
    rfl
  · show lookupA (saveWorkoutHistory _ ty today now).workoutHistory today = _
    rw [saveWorkoutHistory_today]
    show some ((lookupA t.workoutHistory today).getD [] ++
      [⟨ty, (lookupA (modifyA t.workoutCounts ty (· + 1)) ty).getD 0, now⟩]) = _
    rw [lookupA_modifyA_self, hc]
    rfl
  · intro d hd
    show lookupA (saveWorkoutHistory _ ty today now).workoutHistory d = _
    rw [saveWorkoutHistory_other _ _ _ _ _ hd]

/-- Witness for C10: toggling the already-complete `Back` (count 3) on
`tSample` keeps it complete, bumps the count to 4 and appends a fourth
entry. -/
theorem toggle_is_one_way_witness :
    (lookupA tSample.workoutCounts "Back" = some 3 ∧
      lookupA tSample.workoutState "Back" = some ⟨true, 1⟩ ∧
      (∃ p ∈ tSample.workoutState, p.1 ≠ "Back" ∧ p.2.completed = false)) ∧
      ((toggleWorkout tSample "Back" "2026-01-01" "T2").2 = WEvent.toggled ∧
      (lookupA (toggleWorkout tSample "Back" "2026-01-01"
        "T2").1.workoutState "Back").map (·.completed) = some true ∧
      lookupA (toggleWorkout tSample "Back" "2026-01-01"
        "T2").1.workoutCounts "Back" = some 4 ∧
      lookupA (toggleWorkout tSample "Back" "2026-01-01"
          "T2").1.workoutHistory "2026-01-01" =
        some ((lookupA tSample.workoutHistory "2026-01-01").getD [] ++
          [⟨"Back", 4, "T2"⟩]) ∧
      (∀ d, d ≠ "2026-01-01" →
        lookupA (toggleWorkout tSample "Back" "2026-01-01"
            "T2").1.workoutHistory d = lookupA tSample.workoutHistory d)) :=
  ⟨⟨by decide, by decide, by decide⟩,
    toggle_is_one_way tSample "Back" "2026-01-01" "T2" 3 (by decide) ⟨true, 1⟩
      (by decide) rfl (by decide)⟩

/-! ## C8: the workout display ordering -/

/-- The comparator's weak order refines the readable ordering rule:
incomplete strictly before complete; within equal completedness,
nondecreasing `order`. -/
theorem tabRel_implies {a b : String × WState} (h : tabRel a b) :
    (a.2.completed = false ∧ b.2.completed = true) ∨
      (a.2.completed = b.2.completed ∧ a.2.order ≤ b.2.order) := by
  unfold tabRel tabLe at h
  rcases ha : a.2.completed <;> rcases hb : b.2.completed <;>
    rw [ha, hb] at h <;> simp_all

/-- C8: the display order is a pure function of `workoutState`: the sorted
tab list is a permutation of the state entries in which incomplete types
precede completed ones and, within equal completedness, `order` ascends;
in particular for types `[A, B, C]` with only `B` completed the rendered
tab order is `[A, C, B]` whatever the click counts say. -/
theorem workout_display_order :
    (∀ counts : List (String × Nat),
      (renderWorkoutTabs
        [("A", ⟨false, 0⟩), ("B", ⟨true, 1⟩), ("C", ⟨false, 2⟩)] counts).map
          (·.type) = ["A", "C", "B"]) ∧
    (∀ state : List (String × WState),
      List.Perm (sortedWorkouts state) state ∧
      (sortedWorkouts state).Pairwise (fun a b =>
        (a.2.completed = false ∧ b.2.completed = true) ∨
          (a.2.completed = b.2.completed ∧ a.2.order ≤ b.2.order))) := by
  constructor
  · intro counts
    simp only [renderWorkoutTabs, List.map_map]
    rw [show sortedWorkouts [("A", ⟨false, 0⟩), ("B", ⟨true, 1⟩), ("C", ⟨false, 2⟩)] =
      [("A", ⟨false, 0⟩), ("C", ⟨false, 2⟩), ("B", ⟨true, 1⟩)] from by decide]
    rfl
  · intro state
    exact ⟨List.perm_insertionSort tabRel state,
      (List.sorted_insertionSort tabRel state).imp (fun h => tabRel_implies h)⟩

end Tracker2
